import Mathlib

/-!
Shallow embedding of `src/get_game.py` (Rusty-Jeopardy's game scraper) and
proofs about its extraction pipeline.

The Python script fetches a j-archive game page, rewrites the escaped
entities `&lt;`/`&gt;`, parses the markup, extracts three rounds
(`div#jeopardy_round`, `div#double_jeopardy_round`,
`div#final_jeopardy_round`) into record dictionaries, and writes the
result as JSON to `{games_root}/{game_id}.json`.

Modelling conventions:
* An HTML element's optional sub-element text is an `Option String`:
  `none` means the sub-element is absent (Python's `select_one` returns
  `None` and a subsequent `.text` raises `AttributeError`), `some s`
  means the sub-element is present with text `s` (possibly empty).
* Python exceptions (`AttributeError`, `IndexError`) are modelled by
  `Option`: `none` is an uncaught exception aborting the extraction.
* Line 45 of the source, `if row_i == 0:`, has an empty body (the file
  as written is an `IndentationError`); it is modelled as a no-op, which
  is the only reading under which the function runs at all.
* Machine integers are `Nat`; all quantities involved are small and
  non-negative, so no overflow modelling is needed.
-/

set_option autoImplicit false

namespace RustyJeopardy

/-! ## Output data model (the dictionaries built by the script) -/

/-- One clue dictionary: `{'clue': ..., 'response': ..., 'cost': ..., 'is_daily_double': ...}`
(line 52 of `src/get_game.py`). -/
structure ClueRecord where
  clue : String
  response : String
  cost : Nat
  is_daily_double : Bool
  deriving DecidableEq

/-- One category dictionary: `{'category': ..., 'clues': [...]}` (line 41). -/
structure CategoryRecord where
  category : String
  clues : List ClueRecord
  deriving DecidableEq

/-- A default-round dictionary (line 53). -/
structure DefaultRound where
  categories : List CategoryRecord
  name : String
  round_type : String
  default_max_wager : Nat
  deriving DecidableEq

/-- A final-round dictionary (line 59). It has exactly one `clue` and one
`response` field and no `categories` list. -/
structure FinalRound where
  category : String
  clue : String
  response : String
  round_type : String
  name : String
  default_max_wager : Nat
  deriving DecidableEq

/-- An element of the `rounds` list (line 26): either a default round or the
final round. -/
inductive RoundRecord where
  | defaultR : DefaultRound → RoundRecord
  | finalR : FinalRound → RoundRecord
  deriving DecidableEq

/-- The top-level payload `{'rounds': rounds}` (line 28). -/
structure GamePayload where
  rounds : List RoundRecord
  deriving DecidableEq

/-! ## Input model (the markup regions the script reads) -/

/-- One `td.clue` cell of a round table, as the script reads it:
`clueText` is the text of the `td.clue_text` sub-element (`none` when that
sub-element is absent), `responseText` the text of the
`em.correct_response` marker, `hasDailyDoubleMarker` whether a
`td.clue_value_daily_double` element is present. `renderedValue` is the
numeric clue value displayed in the cell's `td.clue_value` element; the
extractor never reads it (it is carried only so that properties about
rendered values can be stated). -/
structure ClueCell where
  clueText : Option String
  responseText : Option String
  hasDailyDoubleMarker : Bool
  renderedValue : Option Nat
  deriving DecidableEq

/-- One `tr` of a round table; `clueCells` is `tr.select("td.clue")` in
document order. -/
structure ClueRow where
  clueCells : List ClueCell
  deriving DecidableEq

/-- A `table.round`: `categoryNames` is the text of each
`td.category_name` (line 41), `rows` the direct `tr` children in order
(line 43); the first row is the header row. -/
structure RoundTable where
  categoryNames : List String
  rows : List ClueRow
  deriving DecidableEq

/-- A `table.final_round`: the text of `td.category_name`, `td#clue_FJ`
and `em.correct_response`, each `none` when the element is absent. -/
structure FinalTable where
  categoryName : Option String
  clueFJ : Option String
  correctResponse : Option String
  deriving DecidableEq

/-- The parsed document, as far as the script queries it: the three fixed
round containers (each `none` when `div#...` or its inner table is
missing), plus the number of any further round-container divs on the
page, which the script never selects. -/
structure Document where
  jeopardy_round : Option RoundTable
  double_jeopardy_round : Option RoundTable
  final_jeopardy_round : Option FinalTable
  other_round_divs : Nat
  deriving DecidableEq

/-! ## The wager lookup (lines 30-37) -/

/-- Embedding of `get_default_max_wager_for_round` (lines 30-37): a fixed name lookup
with fallback 1000. -/
def get_default_max_wager_for_round (round_name : String) : Nat :=
  if round_name = "Jeopardy" then 1000
  else if round_name = "Double Jeopardy" then 2000
  else if round_name = "Final Jeopardy" then 3000
  else 1000

/-! ## Default-round extraction (lines 40-53) -/

/-- The body of the inner loop of `pull_default_from_table`
(lines 48-52): build one clue dictionary from a `td.clue` cell.
`cost = 100 * (row_i + 1) * round_multiplier` (line 48);
`clue = td.select_one("td.clue_text").text or "This clue was missing"`
(line 49), so the placeholder is substituted exactly when the text is
empty, while an absent sub-element raises `AttributeError` (`none`);
likewise for the response (line 50); `is_daily_double` records whether
the daily-double marker element is present (line 51). -/
def mkClueRecord (round_multiplier row_i : Nat) (td : ClueCell) : Option ClueRecord :=
  match td.clueText, td.responseText with
  | some ct, some rt =>
      some { clue := if ct = "" then "This clue was missing" else ct
             response := if rt = "" then "This response was missing" else rt
             cost := 100 * (row_i + 1) * round_multiplier
             is_daily_double := td.hasDailyDoubleMarker }
  | _, _ => none

/-- Embeds `categories[i]['clues'].append(rec)` (line 52): append at index `i`,
raising `IndexError` (`none`) when `i` is out of range. -/
def appendAt (cats : List CategoryRecord) (i : Nat) (r : ClueRecord) :
    Option (List CategoryRecord) :=
  match cats[i]? with
  | some cat => some (cats.set i { cat with clues := cat.clues ++ [r] })
  | none => none

/-- The inner loop `for i, td in enumerate(clueEls)` (lines 47-52),
started at cell index `i`; `Option.bind` propagates the exceptions. -/
def processCells (round_multiplier row_i : Nat) :
    Nat → List ClueCell → List CategoryRecord → Option (List CategoryRecord)
  | _, [], cats => some cats
  | i, td :: rest, cats =>
    (mkClueRecord round_multiplier row_i td).bind (fun r =>
      (appendAt cats i r).bind (fun cats1 =>
        processCells round_multiplier row_i (i + 1) rest cats1))

/-- The outer loop `for row_i, tr in enumerate(clue_rows)` (lines 44-52),
started at row index `row_i`. The source's bodiless `if row_i == 0:`
(line 45) is a no-op. -/
def processRows (round_multiplier : Nat) :
    Nat → List ClueRow → List CategoryRecord → Option (List CategoryRecord)
  | _, [], cats => some cats
  | row_i, tr :: rest, cats =>
    (processCells round_multiplier row_i 0 tr.clueCells cats).bind (fun cats1 =>
      processRows round_multiplier (row_i + 1) rest cats1)

/-- Embedding of `pull_default_from_table(table, name, round_multiplier=2)`
(lines 40-53). In Python `round_multiplier` defaults to 2; the default is
made explicit at each call site here. Row 0 (the category header row) is
skipped (line 43). -/
def pull_default_from_table (table : RoundTable) (name : String)
    (round_multiplier : Nat) : Option DefaultRound :=
  (processRows round_multiplier 0 (table.rows.drop 1)
      (table.categoryNames.map (fun n => { category := n, clues := [] }))).map
    (fun cats =>
      { categories := cats, name := name, round_type := "DefaultRound",
        default_max_wager := get_default_max_wager_for_round name })

/-! ## Final-round extraction (lines 55-59) -/

/-- Embedding of `pull_final_from_table(table, name)` (lines 55-59). Each `.text` on an
absent element raises (`none`). The `name` parameter is ignored: the
output's `name` is the literal `'Final Jeopardy'`, and so is the argument
of the wager lookup. -/
def pull_final_from_table (table : FinalTable) (name : String) : Option FinalRound :=
  table.categoryName.bind (fun category =>
    table.clueFJ.bind (fun clue =>
      table.correctResponse.map (fun response =>
        { category := category, clue := clue, response := response,
          round_type := "FinalRound", name := "Final Jeopardy",
          default_max_wager := get_default_max_wager_for_round "Final Jeopardy" })))

/-! ## Whole-document extraction (lines 9-28) -/

/-- The extraction part of `get_game_with_id` (lines 15-28): select the
three fixed round containers and build the `rounds` list. A missing
container or inner table raises (`none`); any further round divs on the
page are never selected. -/
def get_game_with_id (doc : Document) : Option GamePayload :=
  doc.jeopardy_round.bind (fun t1 =>
    (pull_default_from_table t1 "Jeopardy" 2).bind (fun single_round =>
      doc.double_jeopardy_round.bind (fun t2 =>
        (pull_default_from_table t2 "Double Jeopardy" 4).bind (fun double_round =>
          doc.final_jeopardy_round.bind (fun t3 =>
            (pull_final_from_table t3 "Final Jeopardy").map (fun final_round =>
              { rounds := [RoundRecord.defaultR single_round,
                           RoundRecord.defaultR double_round,
                           RoundRecord.finalR final_round] }))))))

/-- The number of round containers present in a document: the three fixed
slots that are present, plus any further round divs. -/
def numRoundContainers (doc : Document) : Nat :=
  (if doc.jeopardy_round.isSome then 1 else 0) +
  (if doc.double_jeopardy_round.isSome then 1 else 0) +
  (if doc.final_jeopardy_round.isSome then 1 else 0) +
  doc.other_round_divs

/-! ## The normalizer (lines 12-13)

The raw page bytes are modelled as a `List Char`. Python's
`bytes.replace(pat, rep)` replaces the leftmost-first, non-overlapping
occurrences of `pat`; for the fixed four-byte patterns of lines 12-13 this
is the char-by-char scan below. -/

/-- Embeds `html.replace(b"&lt;", b"<")` (line 12). -/
def replaceLtAll : List Char → List Char
  | '&' :: 'l' :: 't' :: ';' :: rest => '<' :: replaceLtAll rest
  | c :: rest => c :: replaceLtAll rest
  | [] => []

/-- Embeds `html.replace(b"&gt;", b">")` (line 13). -/
def replaceGtAll : List Char → List Char
  | '&' :: 'g' :: 't' :: ';' :: rest => '>' :: replaceGtAll rest
  | c :: rest => c :: replaceGtAll rest
  | [] => []

/-- The normalizer: line 12 followed by line 13. -/
def normalize (s : List Char) : List Char :=
  replaceGtAll (replaceLtAll s)

/-- Modelled from the spec (§4.2): a single left-to-right pass that
decodes exactly the two entities `&lt;` and `&gt;` to `<` and `>` and
copies every other byte unchanged — "only these two entities are
unescaped". Used as the specification the normalizer is compared with. -/
def decodeLtGtOnly : List Char → List Char
  | '&' :: 'l' :: 't' :: ';' :: rest => '<' :: decodeLtGtOnly rest
  | '&' :: 'g' :: 't' :: ';' :: rest => '>' :: decodeLtGtOnly rest
  | c :: rest => c :: decodeLtGtOnly rest
  | [] => []

/-! ## The writer (lines 62-68) -/

/-- Embeds `os.environ.get('J_GAME_ROOT') or 'games'` (line 63): the env
override when it is set and non-empty; the fixed default `games` when it
is unset or set to the empty string (Python's `or` takes the right
operand on an empty string). -/
def games_root (env : Option String) : String :=
  match env with
  | some s => if s = "" then "games" else s
  | none => "games"

/-- Embeds the path template of line 66: `games_root`, slash, game id, `.json`. -/
def out_filename (env : Option String) (game_id : String) : String :=
  games_root env ++ "/" ++ game_id ++ ".json"

/-- String escaping of `json.dump` for the quote and backslash characters
(the only escapes the payloads here can need). -/
def jsonEscape (s : String) : String :=
  s.foldl (fun acc c =>
    if c = '\\' then acc ++ "\\\\"
    else if c = '"' then acc ++ "\\\""
    else acc.push c) ""

def jsonString (s : String) : String := "\"" ++ jsonEscape s ++ "\""

def jsonBool (b : Bool) : String := if b then "true" else "false"

def jsonList (elems : List String) : String :=
  "[" ++ String.intercalate ", " elems ++ "]"

/-- Rendering by `json.dump` of a clue dictionary, keys in insertion order (line 52). -/
def renderClueRecord (r : ClueRecord) : String :=
  "\x7b" ++ jsonString "clue" ++ ": " ++ jsonString r.clue ++ ", " ++
  jsonString "response" ++ ": " ++ jsonString r.response ++ ", " ++
  jsonString "cost" ++ ": " ++ toString r.cost ++ ", " ++
  jsonString "is_daily_double" ++ ": " ++ jsonBool r.is_daily_double ++ "\x7d"

/-- Rendering by `json.dump` of a category dictionary (line 41). -/
def renderCategoryRecord (c : CategoryRecord) : String :=
  "\x7b" ++ jsonString "category" ++ ": " ++ jsonString c.category ++ ", " ++
  jsonString "clues" ++ ": " ++ jsonList (c.clues.map renderClueRecord) ++ "\x7d"

/-- Rendering by `json.dump` of a default-round dictionary (line 53). -/
def renderDefaultRound (r : DefaultRound) : String :=
  "\x7b" ++ jsonString "categories" ++ ": " ++
    jsonList (r.categories.map renderCategoryRecord) ++ ", " ++
  jsonString "name" ++ ": " ++ jsonString r.name ++ ", " ++
  jsonString "round_type" ++ ": " ++ jsonString r.round_type ++ ", " ++
  jsonString "default_max_wager" ++ ": " ++ toString r.default_max_wager ++ "\x7d"

/-- Rendering by `json.dump` of a final-round dictionary (line 59). -/
def renderFinalRound (r : FinalRound) : String :=
  "\x7b" ++ jsonString "category" ++ ": " ++ jsonString r.category ++ ", " ++
  jsonString "clue" ++ ": " ++ jsonString r.clue ++ ", " ++
  jsonString "response" ++ ": " ++ jsonString r.response ++ ", " ++
  jsonString "round_type" ++ ": " ++ jsonString r.round_type ++ ", " ++
  jsonString "name" ++ ": " ++ jsonString r.name ++ ", " ++
  jsonString "default_max_wager" ++ ": " ++ toString r.default_max_wager ++ "\x7d"

def renderRoundRecord : RoundRecord → String
  | RoundRecord.defaultR r => renderDefaultRound r
  | RoundRecord.finalR r => renderFinalRound r

/-- Embeds `json.dump(payload, out_file)` (line 68): the serialized payload. -/
def renderPayload (p : GamePayload) : String :=
  "\x7b" ++ jsonString "rounds" ++ ": " ++
    jsonList (p.rounds.map renderRoundRecord) ++ "\x7d"

/-- A file system, as a map from path to contents. -/
def FileSystem := String → Option String

/-- Lines 62-68: compute the output path from the environment and the
game id and write the serialized payload there, replacing whatever the
file system previously held at that path (`open(out_filename, 'w')`
truncates; nothing checks for an existing file first). -/
def write_game_file (env : Option String) (game_id : String)
    (payload : GamePayload) (fs : FileSystem) : FileSystem :=
  fun p => if p = out_filename env game_id then some (renderPayload payload) else fs p

/-! ## Spec-side definitions about rendered clue values

The spec (§4.3 step 5) describes a multiplier derived from "the smallest
clue value rendered in that round's table". The extractor never reads the
rendered values, so these definitions are modelled from the spec's words
in order to state that property. -/

/-- Modelled from the spec: the clue values rendered in a round table's
cells, in document order. -/
def renderedValues (t : RoundTable) : List Nat :=
  (t.rows.map (fun tr => tr.clueCells.filterMap ClueCell.renderedValue)).flatten

/-- Modelled from the spec: the smallest clue value rendered in a round
table, `none` when no value is rendered. -/
def smallestRenderedValue (t : RoundTable) : Option Nat :=
  (renderedValues t).foldr
    (fun v acc =>
      match acc with
      | none => some v
      | some w => some (min v w)) none

/-- Strip every rendered clue value from a table (used to state that the
extractor's output does not depend on them). -/
def eraseRenderedValues (t : RoundTable) : RoundTable :=
  { categoryNames := t.categoryNames,
    rows := t.rows.map (fun tr =>
      { clueCells := tr.clueCells.map (fun td => { td with renderedValue := none }) }) }

/-- Holds when `r` occurs as a clue of some category of `cats`. -/
def memClues (r : ClueRecord) (cats : List CategoryRecord) : Prop :=
  ∃ cat ∈ cats, r ∈ cat.clues

/-! ## Concrete fixtures used by witnesses and counterexamples -/

/-- A well-formed clue cell. -/
def wCell : ClueCell :=
  { clueText := some "c", responseText := some "r",
    hasDailyDoubleMarker := false, renderedValue := none }

/-- The category header row (no clue cells). -/
def wHeaderRow : ClueRow := { clueCells := [] }

/-- A 1-category, 1-clue-row table. -/
def wTable : RoundTable :=
  { categoryNames := ["A"], rows := [wHeaderRow, { clueCells := [wCell] }] }

/-- The clue record the extractor builds from `wCell` at row 0,
multiplier 2. -/
def wClueRec : ClueRecord :=
  { clue := "c", response := "r", cost := 200, is_daily_double := false }

/-- The category record holding `wClueRec`. -/
def wCat : CategoryRecord := { category := "A", clues := [wClueRec] }

/-- The round the extractor produces from `wTable` with name `Jeopardy`
and multiplier 2. -/
def wRound : DefaultRound :=
  { categories := [wCat], name := "Jeopardy", round_type := "DefaultRound",
    default_max_wager := 1000 }

/-- The clue record built from `wCell` at row 0, multiplier 4. -/
def wClueRec4 : ClueRecord :=
  { clue := "c", response := "r", cost := 400, is_daily_double := false }

/-- The round the extractor produces from `wTable` with name
`Double Jeopardy` and multiplier 4. -/
def wRound4 : DefaultRound :=
  { categories := [{ category := "A", clues := [wClueRec4] }],
    name := "Double Jeopardy", round_type := "DefaultRound",
    default_max_wager := 2000 }

/-- A well-formed final-round table. -/
def wFinalTable : FinalTable :=
  { categoryName := some "X", clueFJ := some "Y", correctResponse := some "Z" }

/-- The final round produced from `wFinalTable`. -/
def wFinalRound : FinalRound :=
  { category := "X", clue := "Y", response := "Z", round_type := "FinalRound",
    name := "Final Jeopardy", default_max_wager := 3000 }

/-- A document with all three round containers present. -/
def wDoc : Document :=
  { jeopardy_round := some wTable, double_jeopardy_round := some wTable,
    final_jeopardy_round := some wFinalTable, other_round_divs := 0 }

/-- The payload the extractor produces from `wDoc`. -/
def wPayload : GamePayload :=
  { rounds := [RoundRecord.defaultR wRound, RoundRecord.defaultR wRound4,
               RoundRecord.finalR wFinalRound] }

/-- A clue cell whose two text sub-elements are present but empty. -/
def emptyTextCell : ClueCell :=
  { clueText := some "", responseText := some "",
    hasDailyDoubleMarker := false, renderedValue := none }

/-- A clue cell lacking the `td.clue_text` sub-element. -/
def noClueElemCell : ClueCell :=
  { clueText := none, responseText := some "r",
    hasDailyDoubleMarker := false, renderedValue := none }

/-- A table whose only clue cell lacks the `td.clue_text` sub-element. -/
def missingClueTable : RoundTable :=
  { categoryNames := ["A"], rows := [wHeaderRow, { clueCells := [noClueElemCell] }] }

/-- A document with only two of the three fixed round containers. -/
def twoContainerDoc : Document :=
  { jeopardy_round := some wTable, double_jeopardy_round := none,
    final_jeopardy_round := some wFinalTable, other_round_divs := 0 }

/-- A table whose single clue cell renders the value 500. -/
def value500Table : RoundTable :=
  { categoryNames := ["A"],
    rows := [wHeaderRow,
      { clueCells := [{ clueText := some "c", responseText := some "r",
                        hasDailyDoubleMarker := false, renderedValue := some 500 }] }] }

/-- A ragged table: two categories but a single clue cell in the clue
row. -/
def raggedTable : RoundTable :=
  { categoryNames := ["A", "B"], rows := [wHeaderRow, { clueCells := [wCell] }] }

/-- A table with one category, one daily-double cell. -/
def ddTable : RoundTable :=
  { categoryNames := ["A"],
    rows := [wHeaderRow,
      { clueCells := [{ clueText := some "c", responseText := some "r",
                        hasDailyDoubleMarker := true, renderedValue := none }] }] }

/-- The clue record the extractor builds from `ddTable`'s cell. -/
def ddClueRec : ClueRecord :=
  { clue := "c", response := "r", cost := 200, is_daily_double := true }

/-- The category record holding `ddClueRec`. -/
def ddCat : CategoryRecord := { category := "A", clues := [ddClueRec] }

/-- The round the extractor produces from `ddTable` with name `Jeopardy`
and multiplier 2. -/
def ddRound : DefaultRound :=
  { categories := [ddCat], name := "Jeopardy", round_type := "DefaultRound",
    default_max_wager := 1000 }

/-- The empty payload used by the writer witness. -/
def emptyPayload : GamePayload := { rounds := [] }

/-- The empty file system used by the writer witness. -/
def emptyFs : FileSystem := fun _ => none

/-! ## Helper lemmas -/

theorem replaceLtAll_cons (c : Char) (rest : List Char)
    (h : ∀ t, c :: rest ≠ '&' :: 'l' :: 't' :: ';' :: t) :
    replaceLtAll (c :: rest) = c :: replaceLtAll rest :=
  replaceLtAll.eq_2 c rest (fun t hc hr => h t (by rw [hc, hr]))

theorem replaceGtAll_cons (c : Char) (rest : List Char)
    (h : ∀ t, c :: rest ≠ '&' :: 'g' :: 't' :: ';' :: t) :
    replaceGtAll (c :: rest) = c :: replaceGtAll rest :=
  replaceGtAll.eq_2 c rest (fun t hc hr => h t (by rw [hc, hr]))

/-- Head transparency of `replaceLtAll`: any output head other than the
replacement character `<` was the input's head. -/
theorem replaceLtAll_head (s : List Char) (c : Char) (X : List Char)
    (h : replaceLtAll s = c :: X) (hc : c ≠ '<') :
    ∃ t, s = c :: t ∧ replaceLtAll t = X := by
  match s with
  | [] => simp [replaceLtAll] at h
  | d :: rest =>
    by_cases hpat : ∃ t, d :: rest = '&' :: 'l' :: 't' :: ';' :: t
    · obtain ⟨t, ht⟩ := hpat
      rw [ht, replaceLtAll.eq_1] at h
      injection h with h1 h2
      exact absurd h1.symm hc
    · rw [replaceLtAll_cons d rest (fun t ht => hpat ⟨t, ht⟩)] at h
      injection h with h1 h2
      subst h1
      exact ⟨rest, rfl, h2⟩

/-- Everything `mkClueRecord` guarantees about a successfully built clue
record. -/
theorem mkClueRecord_some {m row_i : Nat} {td : ClueCell} {r : ClueRecord}
    (h : mkClueRecord m row_i td = some r) :
    r.cost = 100 * (row_i + 1) * m ∧ r.is_daily_double = td.hasDailyDoubleMarker ∧
    (td.clueText = some "" → r.clue = "This clue was missing") ∧
    (td.responseText = some "" → r.response = "This response was missing") := by
  unfold mkClueRecord at h
  cases hct : td.clueText with
  | none => rw [hct] at h; simp at h
  | some ct =>
    cases hrt : td.responseText with
    | none => rw [hct, hrt] at h; simp at h
    | some rt =>
      rw [hct, hrt] at h
      simp only [Option.some.injEq] at h
      subst h
      refine ⟨rfl, rfl, ?_, ?_⟩
      · intro he
        injection he with he
        simp [he]
      · intro he
        injection he with he
        simp [he]

/-- A record in the categories after `appendAt` was there before or is
the appended record. -/
theorem appendAt_mem {cats : List CategoryRecord} {i : Nat} {rec : ClueRecord}
    {cats1 : List CategoryRecord} (h : appendAt cats i rec = some cats1)
    {r : ClueRecord} (hr : memClues r cats1) : memClues r cats ∨ r = rec := by
  unfold appendAt at h
  cases hidx : cats[i]? with
  | none => rw [hidx] at h; simp at h
  | some cat =>
    rw [hidx] at h
    simp only [Option.some.injEq] at h
    subst h
    obtain ⟨cat1, hmem, hrin⟩ := hr
    rcases List.mem_or_eq_of_mem_set hmem with hin | heq
    · exact Or.inl ⟨cat1, hin, hrin⟩
    · subst heq
      simp only [List.mem_append, List.mem_singleton] at hrin
      rcases hrin with hin | heq
      · exact Or.inl ⟨cat, List.getElem?_mem hidx, hin⟩
      · exact Or.inr heq

/-- A record present after the inner cell loop was there before or was
built from one of the processed cells. -/
theorem processCells_mem (m row_i : Nat) :
    ∀ (cells : List ClueCell) (i : Nat) (cats cats1 : List CategoryRecord),
      processCells m row_i i cells cats = some cats1 →
      ∀ r, memClues r cats1 →
        memClues r cats ∨ ∃ td ∈ cells, mkClueRecord m row_i td = some r := by
  intro cells
  induction cells with
  | nil =>
    intro i cats cats1 h r hr
    rw [processCells] at h
    simp only [Option.some.injEq] at h
    subst h
    exact Or.inl hr
  | cons td rest ihc =>
    intro i cats cats1 h r hr
    rw [processCells] at h
    cases hmk : mkClueRecord m row_i td with
    | none => rw [hmk] at h; simp at h
    | some rec =>
      rw [hmk, Option.some_bind] at h
      cases happ : appendAt cats i rec with
      | none => rw [happ] at h; simp at h
      | some cats2 =>
        rw [happ, Option.some_bind] at h
        rcases ihc (i + 1) cats2 cats1 h r hr with hin | ⟨td2, htd2, hm2⟩
        · rcases appendAt_mem happ hin with h1 | h2
          · exact Or.inl h1
          · exact Or.inr ⟨td, List.mem_cons_self td rest, by rw [h2]; exact hmk⟩
        · exact Or.inr ⟨td2, List.mem_cons_of_mem td htd2, hm2⟩

/-- A record present after the outer row loop was there before or was
built from a cell of row `j` (0-based, counted from the loop's starting
index `k`). -/
theorem processRows_mem (m : Nat) :
    ∀ (rows : List ClueRow) (k : Nat) (cats cats1 : List CategoryRecord),
      processRows m k rows cats = some cats1 →
      ∀ r, memClues r cats1 →
        memClues r cats ∨
          ∃ j tr, rows[j]? = some tr ∧
            ∃ td ∈ tr.clueCells, mkClueRecord m (k + j) td = some r := by
  intro rows
  induction rows with
  | nil =>
    intro k cats cats1 h r hr
    rw [processRows] at h
    simp only [Option.some.injEq] at h
    subst h
    exact Or.inl hr
  | cons tr rest ihr =>
    intro k cats cats1 h r hr
    rw [processRows] at h
    cases hpc : processCells m k 0 tr.clueCells cats with
    | none => rw [hpc] at h; simp at h
    | some cats2 =>
      rw [hpc, Option.some_bind] at h
      rcases ihr (k + 1) cats2 cats1 h r hr with hin | ⟨j, tr2, hj, td, htd, hm⟩
      · rcases processCells_mem m k tr.clueCells 0 cats cats2 hpc r hin with h1 | ⟨td, htd, hm⟩
        · exact Or.inl h1
        · exact Or.inr ⟨0, tr, List.getElem?_cons_zero, td, htd, by simpa using hm⟩
      · refine Or.inr ⟨j + 1, tr2, by simpa using hj, td, htd, ?_⟩
        have : k + 1 + j = k + (j + 1) := by omega
        rw [← this]
        exact hm

/-- Every clue record of a round built by `pull_default_from_table` was
built by `mkClueRecord` from a cell of some row `row_i` of the table's
rows after the header row. -/
theorem pull_default_origin {t : RoundTable} {name : String} {m : Nat}
    {round : DefaultRound} (h : pull_default_from_table t name m = some round) :
    ∀ cat ∈ round.categories, ∀ r ∈ cat.clues,
      ∃ row_i tr, (t.rows.drop 1)[row_i]? = some tr ∧
        ∃ td ∈ tr.clueCells, mkClueRecord m row_i td = some r := by
  unfold pull_default_from_table at h
  rw [Option.map_eq_some'] at h
  obtain ⟨cats, hp, hf⟩ := h
  intro cat hcat r hr
  have hcats : round.categories = cats := by rw [← hf]
  rw [hcats] at hcat
  rcases processRows_mem m _ 0 _ _ hp r ⟨cat, hcat, hr⟩ with hin | ⟨j, tr, hj, td, htd, hm⟩
  · obtain ⟨cat0, hc0, hr0⟩ := hin
    simp only [List.mem_map] at hc0
    obtain ⟨n, _, hn⟩ := hc0
    rw [← hn] at hr0
    simp at hr0
  · exact ⟨j, tr, hj, td, htd, by simpa using hm⟩

/-- Successful whole-document extraction decomposes into the three
successful per-round extractions, in fixed order. -/
theorem get_game_with_id_elim {doc : Document} {p : GamePayload}
    (h : get_game_with_id doc = some p) :
    ∃ t1 r1 t2 r2 t3 r3,
      doc.jeopardy_round = some t1 ∧
      pull_default_from_table t1 "Jeopardy" 2 = some r1 ∧
      doc.double_jeopardy_round = some t2 ∧
      pull_default_from_table t2 "Double Jeopardy" 4 = some r2 ∧
      doc.final_jeopardy_round = some t3 ∧
      pull_final_from_table t3 "Final Jeopardy" = some r3 ∧
      p = { rounds := [RoundRecord.defaultR r1, RoundRecord.defaultR r2,
                       RoundRecord.finalR r3] } := by
  unfold get_game_with_id at h
  cases h1 : doc.jeopardy_round with
  | none => rw [h1] at h; simp at h
  | some t1 =>
    rw [h1, Option.some_bind] at h
    cases h2 : pull_default_from_table t1 "Jeopardy" 2 with
    | none => rw [h2] at h; simp at h
    | some r1 =>
      rw [h2, Option.some_bind] at h
      cases h3 : doc.double_jeopardy_round with
      | none => rw [h3] at h; simp at h
      | some t2 =>
        rw [h3, Option.some_bind] at h
        cases h4 : pull_default_from_table t2 "Double Jeopardy" 4 with
        | none => rw [h4] at h; simp at h
        | some r2 =>
          rw [h4, Option.some_bind] at h
          cases h5 : doc.final_jeopardy_round with
          | none => rw [h5] at h; simp at h
          | some t3 =>
            rw [h5, Option.some_bind] at h
            cases h6 : pull_final_from_table t3 "Final Jeopardy" with
            | none => rw [h6] at h; simp at h
            | some r3 =>
              rw [h6] at h
              simp only [Option.map_some', Option.some.injEq] at h
              exact ⟨t1, r1, t2, r2, t3, r3, rfl, h2, rfl, h4, rfl, h6, h.symm⟩

/-- Record building (`mkClueRecord`) never reads the rendered value. -/
theorem mkClueRecord_erase (m i : Nat) (td : ClueCell) :
    mkClueRecord m i { td with renderedValue := none } = mkClueRecord m i td := rfl

/-- The inner cell loop never reads the rendered values. -/
theorem processCells_erase (m row_i : Nat) :
    ∀ (cells : List ClueCell) (i : Nat) (cats : List CategoryRecord),
      processCells m row_i i
          (cells.map (fun td => { td with renderedValue := none })) cats =
        processCells m row_i i cells cats := by
  intro cells
  induction cells with
  | nil => intro i cats; rfl
  | cons td rest ih =>
    intro i cats
    simp only [List.map_cons, processCells, mkClueRecord_erase]
    exact congrArg (Option.bind _) (funext fun r =>
      congrArg (Option.bind _) (funext fun cats1 => ih (i + 1) cats1))

/-- The outer row loop never reads the rendered values. -/
theorem processRows_erase (m : Nat) :
    ∀ (rows : List ClueRow) (k : Nat) (cats : List CategoryRecord),
      processRows m k
          (rows.map (fun tr =>
            { clueCells := tr.clueCells.map
                (fun td => { td with renderedValue := none }) })) cats =
        processRows m k rows cats := by
  intro rows
  induction rows with
  | nil => intro k cats; rfl
  | cons tr rest ih =>
    intro k cats
    simp only [List.map_cons, processRows]
    rw [processCells_erase m k tr.clueCells 0 cats]
    exact congrArg (Option.bind _) (funext fun cats1 => ih (k + 1) cats1)

/-- What a successful `appendAt` does to the per-index clue counts. -/
theorem appendAt_lengths {cats : List CategoryRecord} {i : Nat} {r : ClueRecord}
    {cats1 : List CategoryRecord} (h : appendAt cats i r = some cats1) :
    cats1.length = cats.length ∧ i < cats.length ∧
    ∀ j, cats1[j]?.map (fun c => c.clues.length) =
      cats[j]?.map (fun c => c.clues.length + if j = i then 1 else 0) := by
  unfold appendAt at h
  cases hidx : cats[i]? with
  | none => rw [hidx] at h; simp at h
  | some cat =>
    rw [hidx] at h
    simp only [Option.some.injEq] at h
    subst h
    obtain ⟨hlt, hget⟩ := List.getElem?_eq_some.mp hidx
    refine ⟨List.length_set cats i _, hlt, ?_⟩
    intro j
    by_cases hj : j = i
    · subst hj
      rw [List.getElem?_set_self hlt, hidx]
      simp
    · rw [List.getElem?_set_ne (fun he => hj he.symm)]
      cases cats[j]? with
      | none => rfl
      | some c => simp [hj]

/-- What a successful inner cell loop does to the per-index clue counts:
one clue is appended at each index from `i` to `i + cells.length - 1`. -/
theorem processCells_lengths (m row_i : Nat) :
    ∀ (cells : List ClueCell) (i : Nat) (cats cats1 : List CategoryRecord),
      processCells m row_i i cells cats = some cats1 →
      cats1.length = cats.length ∧
      ∀ j, cats1[j]?.map (fun c => c.clues.length) =
        cats[j]?.map (fun c =>
          c.clues.length + if i ≤ j ∧ j < i + cells.length then 1 else 0) := by
  intro cells
  induction cells with
  | nil =>
    intro i cats cats1 h
    rw [processCells] at h
    simp only [Option.some.injEq] at h
    subst h
    refine ⟨rfl, ?_⟩
    intro j
    have hfalse : ¬(i ≤ j ∧ j < i + ([] : List ClueCell).length) := by
      simp only [List.length_nil]
      omega
    cases cats[j]? with
    | none => rfl
    | some c => simp [hfalse]
  | cons td rest ih =>
    intro i cats cats1 h
    rw [processCells] at h
    cases hmk : mkClueRecord m row_i td with
    | none => rw [hmk] at h; simp at h
    | some rec =>
      rw [hmk, Option.some_bind] at h
      cases happ : appendAt cats i rec with
      | none => rw [happ] at h; simp at h
      | some cats2 =>
        rw [happ, Option.some_bind] at h
        obtain ⟨hlen2, hj2⟩ := ih (i + 1) cats2 cats1 h
        obtain ⟨hlenA, hltA, hjA⟩ := appendAt_lengths happ
        refine ⟨by rw [hlen2, hlenA], ?_⟩
        intro j
        rw [hj2 j]
        cases hc : cats[j]? with
        | none =>
          have hc2 : cats2[j]? = none := by
            have := hjA j
            rw [hc] at this
            simp only [Option.map_none'] at this
            exact Option.map_eq_none'.mp this
          rw [hc2]
          rfl
        | some c =>
          have hA := hjA j
          rw [hc] at hA
          cases hc2 : cats2[j]? with
          | none => rw [hc2] at hA; simp at hA
          | some c2 =>
            rw [hc2] at hA
            simp only [Option.map_some', Option.some.injEq] at hA
            simp only [Option.map_some', Option.some.injEq, List.length_cons]
            rw [hA]
            split_ifs <;> omega

/-- What a successful outer row loop does to the clue counts when every
row has exactly as many clue cells as there are categories: every
category gains one clue per row. -/
theorem processRows_lengths (m : Nat) :
    ∀ (rows : List ClueRow) (k : Nat) (cats cats1 : List CategoryRecord),
      processRows m k rows cats = some cats1 →
      (∀ tr ∈ rows, tr.clueCells.length = cats.length) →
      cats1.length = cats.length ∧
      ∀ j : Nat, cats1[j]?.map (fun c : CategoryRecord => c.clues.length) =
        cats[j]?.map (fun c : CategoryRecord => c.clues.length + rows.length) := by
  intro rows
  induction rows with
  | nil =>
    intro k cats cats1 h hreg
    rw [processRows] at h
    simp only [Option.some.injEq] at h
    subst h
    refine ⟨rfl, ?_⟩
    intro j
    cases cats[j]? with
    | none => rfl
    | some c => simp
  | cons tr rest ih =>
    intro k cats cats1 h hreg
    rw [processRows] at h
    cases hpc : processCells m k 0 tr.clueCells cats with
    | none => rw [hpc] at h; simp at h
    | some cats2 =>
      rw [hpc, Option.some_bind] at h
      have hcells : tr.clueCells.length = cats.length :=
        hreg tr (List.mem_cons_self tr rest)
      obtain ⟨hl2, hj2⟩ := processCells_lengths m k tr.clueCells 0 cats cats2 hpc
      obtain ⟨hl1, hj1⟩ := ih (k + 1) cats2 cats1 h
        (fun tr2 htr2 => by rw [hl2]; exact hreg tr2 (List.mem_cons_of_mem tr htr2))
      refine ⟨by rw [hl1, hl2], ?_⟩
      intro j
      rw [hj1 j]
      cases hc : cats[j]? with
      | none =>
        have hc2 : cats2[j]? = none := by
          have := hj2 j
          rw [hc] at this
          simp only [Option.map_none'] at this
          exact Option.map_eq_none'.mp this
        rw [hc2]
        rfl
      | some c =>
        have hjlt : j < cats.length := (List.getElem?_eq_some.mp hc).1
        have h2 := hj2 j
        rw [hc] at h2
        cases hc2 : cats2[j]? with
        | none => rw [hc2] at h2; simp at h2
        | some c2 =>
          rw [hc2] at h2
          simp only [Option.map_some', Option.some.injEq] at h2
          simp only [Option.map_some', Option.some.injEq, List.length_cons]
          rw [h2, hcells]
          split_ifs <;> omega

/-! ## Claim theorems -/

/-- C1: every clue record of a DefaultRound produced by
`pull_default_from_table` was built from a cell of some row `row_i`
(its 0-based index among the table rows after the header row, line 43)
and has `cost = 100 * (row_i + 1) * round_multiplier` (line 48), for all
rows and all categories. -/
theorem c1_cost_formula (t : RoundTable) (name : String) (round_multiplier : Nat)
    (round : DefaultRound)
    (h : pull_default_from_table t name round_multiplier = some round) :
    ∀ cat ∈ round.categories, ∀ r ∈ cat.clues,
      ∃ row_i tr, (t.rows.drop 1)[row_i]? = some tr ∧
        (∃ td ∈ tr.clueCells, mkClueRecord round_multiplier row_i td = some r) ∧
        r.cost = 100 * (row_i + 1) * round_multiplier := by
  intro cat hcat r hr
  obtain ⟨row_i, tr, hj, td, htd, hm⟩ := pull_default_origin h cat hcat r hr
  exact ⟨row_i, tr, hj, ⟨td, htd, hm⟩, (mkClueRecord_some hm).1⟩

/-- Witness for C1 at a concrete table: `wTable` with multiplier 2
produces `wClueRec`, whose cost is `100 * (0 + 1) * 2 = 200`. -/
theorem c1_cost_formula_witness :
    ∃ row_i tr, (wTable.rows.drop 1)[row_i]? = some tr ∧
      (∃ td ∈ tr.clueCells, mkClueRecord 2 row_i td = some wClueRec) ∧
      wClueRec.cost = 100 * (row_i + 1) * 2 :=
  c1_cost_formula wTable "Jeopardy" 2 wRound (by decide) wCat (by decide)
    wClueRec (by decide)

/-- C5: a clue record's `is_daily_double` is `true` exactly when its
originating cell contains a `td.clue_value_daily_double` marker element
(line 51). -/
theorem c5_daily_double (t : RoundTable) (name : String) (round_multiplier : Nat)
    (round : DefaultRound)
    (h : pull_default_from_table t name round_multiplier = some round) :
    ∀ cat ∈ round.categories, ∀ r ∈ cat.clues,
      ∃ row_i tr, (t.rows.drop 1)[row_i]? = some tr ∧
        ∃ td ∈ tr.clueCells, mkClueRecord round_multiplier row_i td = some r ∧
          (r.is_daily_double = true ↔ td.hasDailyDoubleMarker = true) := by
  intro cat hcat r hr
  obtain ⟨row_i, tr, hj, td, htd, hm⟩ := pull_default_origin h cat hcat r hr
  have hdd := (mkClueRecord_some hm).2.1
  exact ⟨row_i, tr, hj, td, htd, hm, by rw [hdd]⟩

/-- Witness for C5 at a concrete table: `ddTable`'s single daily-double
cell yields `ddClueRec` with `is_daily_double = true`. -/
theorem c5_daily_double_witness :
    ∃ row_i tr, (ddTable.rows.drop 1)[row_i]? = some tr ∧
      ∃ td ∈ tr.clueCells, mkClueRecord 2 row_i td = some ddClueRec ∧
        (ddClueRec.is_daily_double = true ↔ td.hasDailyDoubleMarker = true) :=
  c5_daily_double ddTable "Jeopardy" 2 ddRound (by decide) ddCat (by decide)
    ddClueRec (by decide)

/-- C2 counterexample: a clue cell lacking the `td.clue_text` sub-element
does not yield a record with the placeholder clue; the whole extraction
fails instead (`.text` on the absent element raises `AttributeError`,
line 49), so no DefaultRound is produced at all. -/
theorem c2_counterexample :
    pull_default_from_table missingClueTable "Jeopardy" 2 = none := by decide

/-- C2 (amended): the placeholders are substituted when the sub-element
is present but its text is empty (`.text or "..."`, lines 49-50); a cell
whose clue-text or response sub-element is absent makes the extraction
fail instead of continuing. -/
theorem c2_placeholder (m row_i : Nat) (td : ClueCell) :
    (∀ r, mkClueRecord m row_i td = some r →
      (td.clueText = some "" → r.clue = "This clue was missing") ∧
      (td.responseText = some "" → r.response = "This response was missing")) ∧
    ((td.clueText = none ∨ td.responseText = none) → mkClueRecord m row_i td = none) := by
  constructor
  · intro r h
    exact ⟨(mkClueRecord_some h).2.2.1, (mkClueRecord_some h).2.2.2⟩
  · intro h
    rcases h with h | h
    · simp [mkClueRecord, h]
    · cases hct : td.clueText with
      | none => simp [mkClueRecord, hct]
      | some ct => simp [mkClueRecord, hct, h]

/-- Witness for C2: the empty-text cell gets both placeholders; the cell
lacking  its clue-text sub-element aborts the extraction. -/
theorem c2_placeholder_witness :
    ({ clue := "This clue was missing", response := "This response was missing",
       cost := 200, is_daily_double := false } : ClueRecord).clue =
        "This clue was missing" ∧
    mkClueRecord 2 0 noClueElemCell = none :=
  ⟨((c2_placeholder 2 0 emptyTextCell).1
      { clue := "This clue was missing", response := "This response was missing",
        cost := 200, is_daily_double := false } (by decide)).1 (by decide),
   (c2_placeholder 2 0 noClueElemCell).2 (Or.inl (by decide))⟩

/-- C10: `get_default_max_wager_for_round` is total: 1000 for `Jeopardy`,
2000 for `Double Jeopardy`, 3000 for `Final Jeopardy`, and 1000 for every
other round name (lines 30-37). -/
theorem c10_wager_total :
    get_default_max_wager_for_round "Jeopardy" = 1000 ∧
    get_default_max_wager_for_round "Double Jeopardy" = 2000 ∧
    get_default_max_wager_for_round "Final Jeopardy" = 3000 ∧
    ∀ round_name : String, round_name ≠ "Jeopardy" →
      round_name ≠ "Double Jeopardy" → round_name ≠ "Final Jeopardy" →
      get_default_max_wager_for_round round_name = 1000 := by
  refine ⟨by decide, by decide, by decide, ?_⟩
  intro s h1 h2 h3
  simp [get_default_max_wager_for_round, h1, h2, h3]

/-- Witness for C10 at the concrete fallback input `Tiebreaker`. -/
theorem c10_wager_total_witness :
    get_default_max_wager_for_round "Tiebreaker" = 1000 :=
  c10_wager_total.2.2.2 "Tiebreaker" (by decide) (by decide) (by decide)

/-- C4: a final-round table with category `X`, clue `Y` and response `Z`
yields the FinalRound record with those fields, `round_type =
"FinalRound"` and `default_max_wager = 3000` (lines 55-59, 35-36), and
through `get_game_with_id` that record is what lands in `rounds`. A
`FinalRound` has exactly one `clue` and one `response` field and no
categories/clues lists (see the structure declaration). -/
theorem c4_final_round (t : FinalTable) (name X Y Z : String)
    (h1 : t.categoryName = some X) (h2 : t.clueFJ = some Y)
    (h3 : t.correctResponse = some Z) :
    pull_final_from_table t name =
      some { category := X, clue := Y, response := Z, round_type := "FinalRound",
             name := "Final Jeopardy", default_max_wager := 3000 } ∧
    (∀ doc p, doc.final_jeopardy_round = some t → get_game_with_id doc = some p →
      RoundRecord.finalR { category := X, clue := Y, response := Z,
                           round_type := "FinalRound", name := "Final Jeopardy",
                           default_max_wager := 3000 } ∈ p.rounds) := by
  have hwager : get_default_max_wager_for_round "Final Jeopardy" = 3000 := by decide
  have hall : ∀ nm : String, pull_final_from_table t nm =
      some { category := X, clue := Y, response := Z, round_type := "FinalRound",
             name := "Final Jeopardy", default_max_wager := 3000 } := by
    intro nm
    unfold pull_final_from_table
    rw [h1, h2, h3, Option.some_bind, Option.some_bind, Option.map_some', hwager]
  refine ⟨hall name, ?_⟩
  intro doc p hd hp
  obtain ⟨t1, r1, t2, r2, t3, r3, e1, e2, e3, e4, e5, e6, ep⟩ :=
    get_game_with_id_elim hp
  rw [hd] at e5
  injection e5 with e5
  subst e5
  rw [hall "Final Jeopardy"] at e6
  injection e6 with e6
  rw [ep, ← e6]
  simp

/-- Witness for C4 at the concrete fixture `wFinalTable` inside `wDoc`. -/
theorem c4_final_round_witness :
    pull_final_from_table wFinalTable "Final Jeopardy" = some wFinalRound ∧
    RoundRecord.finalR wFinalRound ∈ wPayload.rounds :=
  ⟨(c4_final_round wFinalTable "Final Jeopardy" "X" "Y" "Z" rfl rfl rfl).1,
   (c4_final_round wFinalTable "Final Jeopardy" "X" "Y" "Z" rfl rfl rfl).2
     wDoc wPayload rfl (by decide)⟩

/-- C3 counterexample: a document holding only two of the three fixed
round containers does not produce a 2-element `rounds` sequence; the
extraction fails outright (the claim's "a round container that is absent
contributes no record" does not hold: `select_one` on the missing div
raises). -/
theorem c3_counterexample :
    numRoundContainers twoContainerDoc = 2 ∧
    get_game_with_id twoContainerDoc = none := by decide

/-- C3 (amended): `get_game_with_id` handles exactly the three fixed
containers `div#jeopardy_round`, `div#double_jeopardy_round`,
`div#final_jeopardy_round` (lines 15-26): a successful extraction always
yields exactly 3 rounds and requires all three to be present, and any
further round containers on the page are ignored. -/
theorem c3_fixed_rounds (doc : Document) (p : GamePayload)
    (h : get_game_with_id doc = some p) :
    p.rounds.length = 3 ∧ doc.jeopardy_round.isSome ∧
    doc.double_jeopardy_round.isSome ∧ doc.final_jeopardy_round.isSome ∧
    ∀ n, get_game_with_id { doc with other_round_divs := n } = some p := by
  obtain ⟨t1, r1, t2, r2, t3, r3, e1, e2, e3, e4, e5, e6, ep⟩ :=
    get_game_with_id_elim h
  exact ⟨by rw [ep]; rfl, by rw [e1]; rfl, by rw [e3]; rfl, by rw [e5]; rfl,
    fun n => h⟩

/-- Witness for C3 at the concrete document `wDoc`. -/
theorem c3_fixed_rounds_witness :
    wPayload.rounds.length = 3 ∧ wDoc.jeopardy_round.isSome :=
  ⟨(c3_fixed_rounds wDoc wPayload (by decide)).1,
   (c3_fixed_rounds wDoc wPayload (by decide)).2.1⟩

/-- C9 counterexample: with the environment override set to the empty
string the writer does not use it: the path is `games/1.json`, not
`/1.json` as the claim's "taken from the override when set" requires
(`os.environ.get(...) or 'games'`, line 63). -/
theorem c9_counterexample :
    out_filename (some "") "1" = "games/1.json" ∧
    out_filename (some "") "1" ≠ "" ++ "/" ++ "1" ++ ".json" := by decide

/-- C9 (amended): the writer puts the serialized payload at
`{games_root env}/{game_id}.json`, replacing whatever the file system
held at that path regardless of its prior contents (no collision check)
and touching no other path; `games_root` is the environment override when
it is set to a non-empty string, and the fixed default `games` when it is
unset or set to the empty string. -/
theorem c9_writer (env : Option String) (game_id : String)
    (payload : GamePayload) (fs : FileSystem) :
    write_game_file env game_id payload fs (out_filename env game_id) =
      some (renderPayload payload) ∧
    (∀ p, p ≠ out_filename env game_id →
      write_game_file env game_id payload fs p = fs p) ∧
    out_filename env game_id = games_root env ++ "/" ++ game_id ++ ".json" ∧
    (env = none → games_root env = "games") ∧
    (∀ s, env = some s → s ≠ "" → games_root env = s) ∧
    (env = some "" → games_root env = "games") := by
  refine ⟨?_, ?_, rfl, ?_, ?_, ?_⟩
  · simp [write_game_file]
  · intro p hp
    simp [write_game_file, hp]
  · intro he
    rw [he]
    rfl
  · intro s he hs
    rw [he]
    simp [games_root, hs]
  · intro he
    rw [he]
    rfl

/-- Witness for C9: a concrete write with the override set to `out`. -/
theorem c9_writer_witness :
    write_game_file (some "out") "42" emptyPayload emptyFs
      (out_filename (some "out") "42") = some (renderPayload emptyPayload) ∧
    games_root (some "out") = "out" :=
  ⟨(c9_writer (some "out") "42" emptyPayload emptyFs).1,
   (c9_writer (some "out") "42" emptyPayload emptyFs).2.2.2.2.1 "out" rfl
     (by decide)⟩

/-- C7: the normalizer (lines 12-13) coincides with the single-pass
decoder that replaces every occurrence of `&lt;` by `<` and of `&gt;` by
`>` and copies everything else unchanged: only these two entities are
decoded and nothing else in the input changes. -/
theorem c7_normalize_decodes (s : List Char) : normalize s = decodeLtGtOnly s := by
  suffices key : ∀ (n : Nat) (s : List Char), s.length ≤ n →
      normalize s = decodeLtGtOnly s from key s.length s le_rfl
  intro n
  induction n with
  | zero =>
    intro s hs
    have hnil : s = [] := List.eq_nil_of_length_eq_zero (Nat.le_zero.mp hs)
    subst hnil
    rfl
  | succ n ih =>
    intro s hs
    by_cases hlt : ∃ t, s = '&' :: 'l' :: 't' :: ';' :: t
    · obtain ⟨t, ht⟩ := hlt
      subst ht
      have hlen : t.length ≤ n := by simp at hs; omega
      rw [decodeLtGtOnly.eq_1]
      show replaceGtAll (replaceLtAll ('&' :: 'l' :: 't' :: ';' :: t)) = _
      rw [replaceLtAll.eq_1]
      rw [replaceGtAll_cons '<' _
        (by intro u hu; injection hu with h1 _; exact absurd h1 (by decide))]
      exact congrArg (List.cons '<') (ih t hlen)
    · by_cases hgt : ∃ t, s = '&' :: 'g' :: 't' :: ';' :: t
      · obtain ⟨t, ht⟩ := hgt
        subst ht
        have hlen : t.length ≤ n := by simp at hs; omega
        rw [decodeLtGtOnly.eq_2]
        show replaceGtAll (replaceLtAll ('&' :: 'g' :: 't' :: ';' :: t)) = _
        rw [replaceLtAll_cons '&' _
          (by intro u hu; injection hu with _ h2; injection h2 with h3 _;
              exact absurd h3 (by decide))]
        rw [replaceLtAll_cons 'g' _
          (by intro u hu; injection hu with h1 _; exact absurd h1 (by decide))]
        rw [replaceLtAll_cons 't' _
          (by intro u hu; injection hu with h1 _; exact absurd h1 (by decide))]
        rw [replaceLtAll_cons ';' _
          (by intro u hu; injection hu with h1 _; exact absurd h1 (by decide))]
        rw [replaceGtAll.eq_1]
        exact congrArg (List.cons '>') (ih t hlen)
      · match s with
        | [] => rfl
        | c :: rest =>
          have hlen : rest.length ≤ n := by simp at hs; omega
          have hcons : replaceLtAll (c :: rest) = c :: replaceLtAll rest :=
            replaceLtAll_cons c rest (fun t ht => hlt ⟨t, ht⟩)
          have hgtcons : ∀ u, c :: replaceLtAll rest ≠ '&' :: 'g' :: 't' :: ';' :: u := by
            intro u hu
            injection hu with hc1 hc2
            obtain ⟨r1, hr1, hr1eq⟩ := replaceLtAll_head rest 'g' _ hc2 (by decide)
            obtain ⟨r2, hr2, hr2eq⟩ := replaceLtAll_head r1 't' _ hr1eq (by decide)
            obtain ⟨r3, hr3, hr3eq⟩ := replaceLtAll_head r2 ';' _ hr2eq (by decide)
            exact hgt ⟨r3, by rw [hc1, hr1, hr2, hr3]⟩
          show replaceGtAll (replaceLtAll (c :: rest)) = _
          rw [hcons, replaceGtAll_cons c _ hgtcons,
            decodeLtGtOnly.eq_3 c rest
              (fun t ht1 ht2 => hlt ⟨t, by rw [ht1, ht2]⟩)
              (fun t ht1 ht2 => hgt ⟨t, by rw [ht1, ht2]⟩)]
          exact congrArg (List.cons c) (ih rest hlen)

/-- C6 counterexample: a `Jeopardy` round whose table renders the value
500 gets `default_max_wager = 1000` (the fixed name lookup, line 31) and
cost 200 for its first-row clue (multiplier 2), not `500 * 100 = 50000`
and multiplier `500 / 100 = 5` as the claim requires. -/
theorem c6_counterexample :
    smallestRenderedValue value500Table = some 500 ∧
    (pull_default_from_table value500Table "Jeopardy" 2).map
      DefaultRound.default_max_wager = some 1000 ∧
    (pull_default_from_table value500Table "Jeopardy" 2).map
      (fun r => r.categories.map (fun c => c.clues.map ClueRecord.cost)) =
        some [[200]] ∧
    (1000 : Nat) ≠ 500 * 100 ∧ (200 : Nat) ≠ 100 * (0 + 1) * (500 / 100) := by
  decide

/-- C6 (amended): nothing is derived from the clue values rendered in the
table: the extraction result is unchanged when they are all erased, the
multiplier is the caller-supplied `round_multiplier` argument (2 by
Python default, 4 passed for the double round, line 21), and
`default_max_wager` comes from the fixed per-name lookup (lines 30-37). -/
theorem c6_hardcoded_multiplier (t : RoundTable) (name : String)
    (round_multiplier : Nat) :
    pull_default_from_table (eraseRenderedValues t) name round_multiplier =
      pull_default_from_table t name round_multiplier ∧
    ∀ round, pull_default_from_table t name round_multiplier = some round →
      round.default_max_wager = get_default_max_wager_for_round name := by
  constructor
  · show (processRows round_multiplier 0 ((eraseRenderedValues t).rows.drop 1)
        ((eraseRenderedValues t).categoryNames.map
          (fun n => { category := n, clues := [] }))).map _ = _
    have hrows : (eraseRenderedValues t).rows.drop 1 =
        (t.rows.drop 1).map (fun tr =>
          { clueCells := tr.clueCells.map
              (fun td => { td with renderedValue := none }) }) := by
      show (t.rows.map _).drop 1 = _
      rw [← List.map_drop]
    have hnames : (eraseRenderedValues t).categoryNames = t.categoryNames := rfl
    rw [hrows, hnames, processRows_erase]
    rfl
  · intro round h
    have h2 : (processRows round_multiplier 0 (t.rows.drop 1)
        (t.categoryNames.map (fun n => { category := n, clues := [] }))).map
          (fun cats =>
            ({ categories := cats, name := name, round_type := "DefaultRound",
               default_max_wager :=
                 get_default_max_wager_for_round name } : DefaultRound)) =
        some round := h
    rw [Option.map_eq_some'] at h2
    obtain ⟨cats, hp, hf⟩ := h2
    rw [← hf]

/-- Witness for C6 at the concrete table `wTable`. -/
theorem c6_hardcoded_multiplier_witness :
    pull_default_from_table (eraseRenderedValues wTable) "Jeopardy" 2 =
      pull_default_from_table wTable "Jeopardy" 2 ∧
    wRound.default_max_wager = get_default_max_wager_for_round "Jeopardy" :=
  ⟨(c6_hardcoded_multiplier wTable "Jeopardy" 2).1,
   (c6_hardcoded_multiplier wTable "Jeopardy" 2).2 wRound (by decide)⟩

/-- C8 counterexample: a table with two categories whose clue row holds a
single clue cell produces a round whose categories have clue lists of
lengths 1 and 0: the lengths are not all equal and category `B` does not
get one entry for the row. -/
theorem c8_counterexample :
    (pull_default_from_table raggedTable "Jeopardy" 2).map
      (fun r => r.categories.map (fun c => c.clues.length)) = some [1, 0] ∧
    (1 : Nat) ≠ 0 := by decide

/-- C8 (amended): when every non-header row has exactly as many clue
cells as there are categories, every category of a successfully extracted
DefaultRound has one clue per non-header row, so all clue lists have the
same length. (With ragged rows the source appends to fewer categories and
the lengths can differ, as the counterexample shows.) -/
theorem c8_equal_lengths (t : RoundTable) (name : String)
    (round_multiplier : Nat) (round : DefaultRound)
    (h : pull_default_from_table t name round_multiplier = some round)
    (hreg : ∀ tr ∈ t.rows.drop 1, tr.clueCells.length = t.categoryNames.length) :
    ∀ cat ∈ round.categories, cat.clues.length = (t.rows.drop 1).length := by
  unfold pull_default_from_table at h
  rw [Option.map_eq_some'] at h
  obtain ⟨cats, hp, hf⟩ := h
  obtain ⟨hlen, hj⟩ := processRows_lengths round_multiplier (t.rows.drop 1) 0
    (t.categoryNames.map (fun n => { category := n, clues := [] })) cats hp
    (fun tr htr => by rw [List.length_map]; exact hreg tr htr)
  intro cat hcat
  have hcats : round.categories = cats := by rw [← hf]
  rw [hcats] at hcat
  obtain ⟨j, hjq⟩ := List.mem_iff_getElem?.mp hcat
  have hq := hj j
  rw [hjq] at hq
  rw [List.getElem?_map] at hq
  cases hn : t.categoryNames[j]? with
  | none => rw [hn] at hq; simp at hq
  | some n =>
    rw [hn] at hq
    simp only [Option.map_some', Option.some.injEq] at hq
    simpa using hq

/-- Witness for C8 at the concrete table `wTable` (one category, one
clue row, one cell). -/
theorem c8_equal_lengths_witness :
    wCat.clues.length = (wTable.rows.drop 1).length :=
  c8_equal_lengths wTable "Jeopardy" 2 wRound (by decide) (by decide)
    wCat (by decide)

end RustyJeopardy
